import Mathlib

/-!
Verification of the ROI-statistics engine of oxford_asl_roi_stats.py.

Numeric model: Python/numpy double values are modelled by the type PyF,
which is the exact rationals extended with the IEEE-754 special values
plus-infinity, minus-infinity and NaN.  Special values propagate by the
IEEE-754 rules; rounding, overflow and signed zero are abstracted away
(finite arithmetic is exact rational arithmetic).  A Python exception is
modelled by Option/Except: a function that can raise returns none or
Except.error at the raising inputs.
-/

set_option maxRecDepth 4000

attribute [local semireducible] Rat.add Rat.mul Rat.sub Rat.inv

namespace OxaslRoiStats

/-- Model of a Python/numpy double: an exact rational or one of the
IEEE-754 special values. -/
inductive PyF where
  | fin : ℚ → PyF
  | pinf : PyF
  | ninf : PyF
  | nan : PyF
deriving DecidableEq, Repr

namespace PyF

/-- Model of numpy isfinite on a scalar. -/
def isFiniteB : PyF → Bool
  | fin _ => true
  | pinf => false
  | ninf => false
  | nan => false

/-- Model of numpy isnan on a scalar. -/
def isNanB : PyF → Bool
  | fin _ => false
  | pinf => false
  | ninf => false
  | nan => true

/-- IEEE-754 addition on the model (exact in the finite case). -/
def add : PyF → PyF → PyF
  | fin a, fin b => fin (a + b)
  | fin _, pinf => pinf
  | fin _, ninf => ninf
  | fin _, nan => nan
  | pinf, fin _ => pinf
  | pinf, pinf => pinf
  | pinf, ninf => nan
  | pinf, nan => nan
  | ninf, fin _ => ninf
  | ninf, pinf => nan
  | ninf, ninf => ninf
  | ninf, nan => nan
  | nan, _ => nan

/-- IEEE-754 negation on the model. -/
def neg : PyF → PyF
  | fin a => fin (-a)
  | pinf => ninf
  | ninf => pinf
  | nan => nan

/-- IEEE-754 subtraction on the model. -/
def sub (x y : PyF) : PyF := add x (neg y)

/-- IEEE-754 multiplication on the model; infinity times zero is NaN. -/
def mul : PyF → PyF → PyF
  | fin a, fin b => fin (a * b)
  | fin a, pinf => if 0 < a then pinf else if a < 0 then ninf else nan
  | fin a, ninf => if 0 < a then ninf else if a < 0 then pinf else nan
  | fin _, nan => nan
  | pinf, fin b => if 0 < b then pinf else if b < 0 then ninf else nan
  | pinf, pinf => pinf
  | pinf, ninf => ninf
  | pinf, nan => nan
  | ninf, fin b => if 0 < b then ninf else if b < 0 then pinf else nan
  | ninf, pinf => ninf
  | ninf, ninf => pinf
  | ninf, nan => nan
  | nan, _ => nan

/-- IEEE-754 division on the model: a nonzero finite value divided by zero
is a signed infinity (numpy semantics, no signed zero), zero divided by
zero is NaN, infinity divided by infinity is NaN. -/
def div : PyF → PyF → PyF
  | fin a, fin b =>
      if b = 0 then (if a = 0 then nan else if 0 < a then pinf else ninf)
      else fin (a / b)
  | fin _, pinf => fin 0
  | fin _, ninf => fin 0
  | fin _, nan => nan
  | pinf, fin b => if b < 0 then ninf else pinf
  | pinf, pinf => nan
  | pinf, ninf => nan
  | pinf, nan => nan
  | ninf, fin b => if b < 0 then pinf else ninf
  | ninf, pinf => nan
  | ninf, ninf => nan
  | ninf, nan => nan
  | nan, _ => nan

/-- Model of the numpy strict greater-than comparison: NaN compares false
against everything. -/
def gtB : PyF → PyF → Bool
  | fin a, fin b => decide (b < a)
  | fin _, pinf => false
  | fin _, ninf => true
  | fin _, nan => false
  | pinf, fin _ => true
  | pinf, pinf => false
  | pinf, ninf => true
  | pinf, nan => false
  | ninf, _ => false
  | nan, _ => false

end PyF

/-- Model of Python sum / numpy sum over a list of doubles, starting from
zero.  With exact finite arithmetic the result does not depend on the
summation order, so a left fold is a faithful model of numpy sum. -/
def pySum (l : List PyF) : PyF := l.foldl PyF.add (PyF.fin 0)

/-- Truncation toward zero, the behaviour of the Python int() conversion
on a float. -/
def truncQ (q : ℚ) : ℤ := if 0 ≤ q then ⌊q⌋ else ⌈q⌉

/-- Embedding of mean_invvarweighted (source lines 102-106): the inverse
variance weighted mean.  Each precision is the reciprocal of the variance,
non-finite precisions are replaced by zero, and the result is the weighted
sum of the values divided by the sum of the precisions. -/
def mean_invvarweighted (val var : List PyF) : PyF :=
  let prec0 := var.map (fun x => PyF.div (PyF.fin 1) x)
  let prec := prec0.map (fun p => if p.isFiniteB then p else PyF.fin 0)
  PyF.div (pySum (List.zipWith PyF.mul val prec)) (pySum prec)

/-- Embedding of i2 (source lines 108-127), the I squared heterogeneity
measure.  The result none models a Python exception: the division
sum(..)/sum(w) raises ZeroDivisionError when var is empty (both sums are
then the Python integer 0), and the final int() conversion raises on a
non-finite argument.  Otherwise the returned integer is
int(100*(Q-(n-1))/Q + 0.5), with int() truncating toward zero. -/
def i2 (val var : List PyF) : Option ℤ :=
  let n := val.length
  let w := var.map (fun x => PyF.div (PyF.fin 1) x)
  if var.isEmpty then none
  else
    let mu_bar := PyF.div (pySum (List.zipWith PyF.mul w val)) (pySum w)
    let Q := pySum (List.zipWith PyF.mul w
      (val.map (fun x => PyF.mul (PyF.sub x mu_bar) (PyF.sub x mu_bar))))
    let i2v := PyF.div (PyF.sub Q (PyF.fin ((n : ℚ) - 1))) Q
    match PyF.add (PyF.mul (PyF.fin 100) i2v) (PyF.fin (1/2)) with
    | PyF.fin q => some (truncQ q)
    | _ => none

/-- Model of the external library function numpy.mean: the sum divided by
the length. -/
def np_mean (val : List PyF) : PyF :=
  PyF.div (pySum val) (PyF.fin (val.length : ℚ))

/-- Model of the external library function numpy.std (population standard
deviation): the mean squared deviation from the mean.  The final square
root, which is irrational in general, is kept symbolic: the statistic is
recorded as the value StatVal.sqrtFloat of this quantity. -/
def np_msd (val : List PyF) : PyF :=
  np_mean (val.map (fun x =>
    PyF.mul (PyF.sub x (np_mean val)) (PyF.sub x (np_mean val))))

/-- Total order used to model numpy sorting: minus-infinity first, finite
values in rational order, plus-infinity, then NaN last. -/
def sortLeB : PyF → PyF → Bool
  | PyF.nan, PyF.nan => true
  | PyF.nan, _ => false
  | _, PyF.nan => true
  | PyF.ninf, _ => true
  | PyF.fin _, PyF.ninf => false
  | PyF.fin a, PyF.fin b => decide (a ≤ b)
  | PyF.fin _, PyF.pinf => true
  | PyF.pinf, PyF.pinf => true
  | PyF.pinf, _ => false

/-- Insertion step of the sorting model. -/
def insertSorted (x : PyF) : List PyF → List PyF
  | [] => [x]
  | y :: ys => if sortLeB x y then x :: y :: ys else y :: insertSorted x ys

/-- Model of numpy ascending sort (insertion sort; only the sorted result
matters). -/
def pySort : List PyF → List PyF
  | [] => []
  | x :: xs => insertSorted x (pySort xs)

/-- Model of the external library function numpy.median: NaN inputs give
NaN, otherwise the middle element of the sorted data, or the mean of the
two middle elements for even length; empty data gives NaN. -/
def np_median (val : List PyF) : PyF :=
  if val.any PyF.isNanB then PyF.nan
  else
    let s := pySort val
    let n := s.length
    if n = 0 then PyF.nan
    else if n % 2 = 1 then s.getD (n / 2) PyF.nan
    else PyF.div (PyF.add (s.getD (n / 2 - 1) PyF.nan) (s.getD (n / 2) PyF.nan)) (PyF.fin 2)

/-- Model of the external library function numpy.percentile with the
default linear interpolation: NaN inputs give NaN, otherwise linear
interpolation between the two order statistics bracketing position
(n-1)*q/100 of the sorted data. -/
def np_percentile (val : List PyF) (q : ℚ) : PyF :=
  if val.any PyF.isNanB then PyF.nan
  else
    let s := pySort val
    let n := s.length
    if n = 0 then PyF.nan
    else
      let pos : ℚ := ((n : ℚ) - 1) * q / 100
      let lo : ℕ := (⌊pos⌋).toNat
      let frac : ℚ := pos - (⌊pos⌋ : ℚ)
      let a := s.getD lo PyF.nan
      let b := s.getD (lo + 1) a
      PyF.add a (PyF.mul (PyF.fin frac) (PyF.sub b a))

/-- Model of the external library function scipy.stats.iqr with its
defaults: the 75th minus the 25th percentile. -/
def scipy_iqr (val : List PyF) : PyF :=
  PyF.sub (np_percentile val 75) (np_percentile val 25)

/-- Value stored in a statistics row: Python None, a Python int, a double,
or the (in general irrational) square root of a double, used for the
result of numpy.std. -/
inductive StatVal where
  | none : StatVal
  | int : ℤ → StatVal
  | float : PyF → StatVal
  | sqrtFloat : PyF → StatVal
deriving DecidableEq, Repr

/-- Type of a registered statistic function: sample values and sample
variances to either a raised exception (Except.error) or a value. -/
def StatFn := List PyF → List PyF → Except String StatVal

/-- Embedding of the helper that adds an unused variance parameter to a
function which does not use it (source lines 96-100). -/
def _addvar (f : List PyF → StatVal) : StatFn := fun val _ => Except.ok (f val)

/-- Registry entry for i2: the int() conversion raises on a non-finite
argument, modelled as Except.error. -/
def i2Stat : StatFn := fun val var =>
  match i2 val var with
  | some z => Except.ok (StatVal.int z)
  | none => Except.error "int conversion of non-finite value"

/-- Embedding of STATS_FNS (source lines 129-136): the ordered registry of
named statistic functions. -/
def STATS_FNS : List (String × StatFn) :=
  [("Mean", _addvar (fun v => StatVal.float (np_mean v))),
   ("Std", _addvar (fun v => StatVal.sqrtFloat (np_msd v))),
   ("Median", _addvar (fun v => StatVal.float (np_median v))),
   ("IQR", _addvar (fun v => StatVal.float (scipy_iqr v))),
   ("Precision-weighted mean",
     fun val var => Except.ok (StatVal.float (mean_invvarweighted val var))),
   ("I2", i2Stat)]

/-- Voxel array of doubles: the numpy shape together with the flattened
data in C order. -/
structure NDArray where
  shape : List ℕ
  data : List PyF
deriving DecidableEq, Repr

/-- Boolean voxel array. -/
structure BoolArray where
  shape : List ℕ
  data : List Bool
deriving DecidableEq, Repr

/-- Elementwise comparison of an array against a scalar threshold, the
model of the numpy expression arr.data greater-than t. -/
def gtMask (a : NDArray) (t : ℚ) : BoolArray :=
  { shape := a.shape, data := a.data.map (fun x => PyF.gtB x (PyF.fin t)) }

/-- Python dict of statistics, modelled as an association list in
insertion order. -/
abbrev StatsDict := List (String × StatVal)

/-- Python dict assignment: update the entry in place when the key exists,
append it otherwise. -/
def dictSet (d : StatsDict) (k : String) (v : StatVal) : StatsDict :=
  if d.any (fun p => p.1 == k) then
    d.map (fun p => if p.1 == k then (k, v) else p)
  else d ++ [(k, v)]

/-- Python dict lookup (keys are unique in a Python dict, so the first
match is the value). -/
def dictGet : StatsDict → String → Option StatVal
  | [], _ => Option.none
  | p :: rest, k => if p.1 == k then some p.2 else dictGet rest k

/-- Embedding of the effective-ROI computation of get_stats (source lines
160-166): the ROI mask, intersected with the non-NaN voxels of the value
image when ignore_nan, with the finite voxels of the value image when
ignore_inf, and with the extra mask when one is supplied.  The variance
image plays no part. -/
def effectiveRoi (img : NDArray) (roi : BoolArray) (ignore_nan ignore_inf : Bool)
    (mask : Option BoolArray) : List Bool :=
  let e1 := roi.data
  let e2 := if ignore_nan then
    List.zipWith (fun a b => a && b) e1 (img.data.map (fun x => !x.isNanB)) else e1
  let e3 := if ignore_inf then
    List.zipWith (fun a b => a && b) e2 (img.data.map (fun x => x.isFiniteB)) else e2
  match mask with
  | some m => List.zipWith (fun a b => a && b) e3 m.data
  | none => e3

/-- Numpy boolean-mask indexing on the flattened data. -/
def extract : List Bool → List PyF → List PyF
  | true :: e, x :: r => x :: extract e r
  | false :: e, _ :: r => extract e r
  | _, _ => []

/-- Embedding of the statistics loop of get_stats (source lines 172-176):
each registered statistic is written as None when the voxel count is below
the minimum, and as the function value otherwise; an exception raised by a
statistic function aborts the loop, leaving the entries written so far. -/
def runStatFns (stats : StatsDict) (fns : List (String × StatFn)) (suffix : String)
    (nvoxels min_nvoxels : ℕ) (sample svar : List PyF) : StatsDict × Option String :=
  match fns with
  | [] => (stats, Option.none)
  | (name, fn) :: rest =>
    if nvoxels < min_nvoxels then
      runStatFns (dictSet stats (name ++ suffix) StatVal.none) rest suffix
        nvoxels min_nvoxels sample svar
    else
      match fn sample svar with
      | Except.ok v => runStatFns (dictSet stats (name ++ suffix) v) rest suffix
          nvoxels min_nvoxels sample svar
      | Except.error e => (stats, some e)

/-- Guard of the third shape check of get_stats: true when an extra mask
is supplied and its shape disagrees with the ROI shape. -/
def maskMismatch (mask : Option BoolArray) (roi : BoolArray) : Bool :=
  match mask with
  | some m => decide (m.shape ≠ roi.shape)
  | Option.none => false

/-- Embedding of get_stats (source lines 138-176).  The pair returned is
the statistics dict after the call together with the message of the raised
exception, if any; a shape mismatch raises before anything is written. -/
def get_stats (stats : StatsDict) (img var_img : NDArray) (roi : BoolArray)
    (suffix : String) (ignore_nan ignore_inf : Bool) (min_nvoxels : ℕ)
    (mask : Option BoolArray) : StatsDict × Option String :=
  if img.shape ≠ roi.shape then (stats, some "Image must have same dimensions as ROI")
  else if var_img.shape ≠ roi.shape then
    (stats, some "Variance image must have same dimensions as ROI")
  else if maskMismatch mask roi then
    (stats, some "Mask must have same dimensions as ROI")
  else
    let eff := effectiveRoi img roi ignore_nan ignore_inf mask
    let sample := extract eff img.data
    let svar := extract eff var_img.data
    let n := sample.length
    runStatFns (dictSet stats ("Nvoxels" ++ suffix) (StatVal.int (n : ℤ))) STATS_FNS
      suffix n min_nvoxels sample svar

/-- Affine transformation matrix, as parsed from the whitespace-separated
text file. -/
abbrev Mat := List (List ℚ)

/-- Type of the external registration collaborator fsl.applywarp: image,
optional nonlinear warp image, reference image, optional pre-warp affine,
optional post-warp affine, to the resampled image.  The engine itself is
out of scope; theorems that need it assume only its contract (the output
lies on the reference grid). -/
abbrev AW := NDArray → Option NDArray → NDArray → Option Mat → Option Mat → NDArray

/-- Embedding of the helper _transform (source lines 54-85): apply the
external warp engine, then optionally binarize the output as an ROI (a
branch no caller of this program enables). -/
def _transform (aw : AW) (img : NDArray) (warp : Option NDArray) (ref : NDArray)
    (premat postmat : Option Mat) (output_is_roi : Bool) (output_roi_thresh : ℚ) : NDArray :=
  let ret := aw img warp ref premat postmat
  if output_is_roi then
    { shape := ret.shape,
      data := ret.data.map (fun x =>
        if PyF.gtB x (PyF.fin output_roi_thresh) then PyF.fin 1 else PyF.fin 0) }
  else ret

/-- ROI record: the uniform record appended by the four ROI-addition
operations.  Fields absent from a given operation are Option.none. -/
structure ROIRecord where
  name : String
  mask_native : BoolArray
  roi_native : Option NDArray
  roi_struct : Option NDArray
  roi_mni : Option NDArray
deriving DecidableEq, Repr

/-- Embedding of add_native_roi (source lines 178-183): record the mask
as-is (user-supplied native ROI files are binarised masks on the
acquisition grid by the input contract). -/
def add_native_roi (rois : List ROIRecord) (roi : BoolArray) (name : String) :
    List ROIRecord :=
  rois ++ [{ name := name, mask_native := roi,
             roi_native := Option.none, roi_struct := Option.none, roi_mni := Option.none }]

/-- Embedding of add_struct_roi (source lines 185-192): transform the
structural-space ROI into native space with the struct-to-asl affine only
and binarize at the threshold. -/
def add_struct_roi (aw : AW) (rois : List ROIRecord) (roi : NDArray) (name : String)
    (ref : NDArray) (struct2asl : Mat) (threshold : ℚ) : List ROIRecord :=
  let roi_native := _transform aw roi Option.none ref (some struct2asl) Option.none false (1/2)
  rois ++ [{ name := name, mask_native := gtMask roi_native threshold,
             roi_native := some roi_native, roi_struct := some roi, roi_mni := Option.none }]

/-- Embedding of add_mni_roi (source lines 194-201): transform the
MNI-space ROI with the MNI-to-structural warp followed by the
struct-to-asl post-matrix and binarize at the threshold. -/
def add_mni_roi (aw : AW) (rois : List ROIRecord) (roi : NDArray) (name : String)
    (mni2struc : NDArray) (ref : NDArray) (struct2asl : Mat) (threshold : ℚ) :
    List ROIRecord :=
  let roi_native := _transform aw roi (some mni2struc) ref Option.none (some struct2asl) false (1/2)
  rois ++ [{ name := name, mask_native := gtMask roi_native threshold,
             roi_native := some roi_native, roi_struct := Option.none, roi_mni := some roi }]

/-- Label of an FSL atlas. -/
structure AtlasLabel where
  name : String
deriving DecidableEq, Repr

/-- Description of an FSL atlas: its registry identifier and its labels. -/
structure AtlasDesc where
  atlasID : String
  labels : List AtlasLabel
deriving DecidableEq, Repr

/-- Embedding of add_rois_from_atlas (source lines 203-220).  The external
atlas registry is modelled by getDesc (atlas name to description) and
loadAtlas (atlas identifier and resolution to the per-label probability
map).  As in the source, the call to add_mni_roi passes the literal
threshold 50 and the loadAtlas call passes the literal resolution 2; the
function's own threshold and resolution parameters are used only in the
log message. -/
def add_rois_from_atlas (aw : AW) (getDesc : String → AtlasDesc)
    (loadAtlas : String → ℕ → AtlasLabel → NDArray) (rois : List ROIRecord)
    (mni2struc_warp : NDArray) (ref_img : NDArray) (struct2asl_mat : Mat)
    (atlas_name : String) (resolution : ℕ) (threshold : ℚ) : List ROIRecord :=
  let desc := getDesc atlas_name
  let atlas := loadAtlas desc.atlasID 2
  desc.labels.foldl
    (fun acc label =>
      add_mni_roi aw acc (atlas label) label.name mni2struc_warp ref_img struct2asl_mat 50)
    rois

/-- Modelled from the spec: the claim's reading of the atlas operation, in
which the operation's own percentage threshold parameter (said to default
to 50 on a 0-100 scale) is what is passed to the MNI operation for every
label.  It differs from add_rois_from_atlas only in passing threshold
instead of the literal 50. -/
def add_rois_from_atlas_claim (aw : AW) (getDesc : String → AtlasDesc)
    (loadAtlas : String → ℕ → AtlasLabel → NDArray) (rois : List ROIRecord)
    (mni2struc_warp : NDArray) (ref_img : NDArray) (struct2asl_mat : Mat)
    (atlas_name : String) (resolution : ℕ) (threshold : ℚ) : List ROIRecord :=
  let desc := getDesc atlas_name
  let atlas := loadAtlas desc.atlasID 2
  desc.labels.foldl
    (fun acc label =>
      add_mni_roi aw acc (atlas label) label.name mni2struc_warp ref_img struct2asl_mat threshold)
    rois

/-- Embedding of the module constant PVE_THRESHOLD_PVC (source line 21). -/
def PVE_THRESHOLD_PVC : ℚ := 1/10

/-- Embedding of the module constant PVE_THRESHOLD_NOPVC (source line 22). -/
def PVE_THRESHOLD_NOPVC : ℚ := 8/10

/-- Model of os.path.join for the paths this program assembles. -/
def pathJoin (a b : String) : String := a ++ "/" ++ b

/-- Decimal digits of a natural number, most significant first, with an
explicit fuel argument to keep the recursion structural. -/
def digitsAux : ℕ → ℕ → List Char
  | 0, _ => []
  | fuel + 1, n =>
    if n = 0 then [] else digitsAux fuel (n / 10) ++ [Char.ofNat (48 + n % 10)]

/-- Decimal rendering of an integer, the model of the Python percent-i
format conversion applied to an integral value. -/
def intDecStr (z : ℤ) : String :=
  if z = 0 then "0"
  else (if z < 0 then "-" else "") ++ String.mk (digitsAux 30 z.natAbs)

/-- Perfusion dataset record produced by get_perfusion_data: the column
suffix, the value image, the variance image and the optional tissue
mask. -/
structure PerfData where
  suffix : String
  f : NDArray
  var : NDArray
  mask : Option BoolArray
deriving DecidableEq, Repr

/-- Embedding of get_perfusion_data (source lines 222-263).  The
filesystem and the image reader are the parameters isdir and load.  When
the pvcorr subdirectory exists the GM and WM datasets read the partial
volume corrected images and mask at PVE_THRESHOLD_PVC; otherwise all
three datasets read the uncorrected image pair and the GM and WM datasets
mask at PVE_THRESHOLD_NOPVC, with the percentage in the suffix computed
from that constant. -/
def get_perfusion_data (isdir : String → Bool) (load : String → NDArray)
    (outdir : String) (gm_pve_asl wm_pve_asl : NDArray) : List PerfData :=
  let base : List PerfData :=
    [{ suffix := "", f := load (pathJoin outdir "perfusion_calib"),
       var := load (pathJoin outdir "perfusion_var_calib"), mask := Option.none }]
  if isdir (pathJoin outdir "pvcorr") then
    base ++
      [{ suffix := " GM",
         f := load (pathJoin (pathJoin outdir "pvcorr") "perfusion_calib"),
         var := load (pathJoin (pathJoin outdir "pvcorr") "perfusion_var_calib"),
         mask := some (gtMask gm_pve_asl PVE_THRESHOLD_PVC) },
       { suffix := " WM",
         f := load (pathJoin (pathJoin outdir "pvcorr") "perfusion_wm_calib"),
         var := load (pathJoin (pathJoin outdir "pvcorr") "perfusion_wm_var_calib"),
         mask := some (gtMask wm_pve_asl PVE_THRESHOLD_PVC) }]
  else
    base ++
      [{ suffix := " " ++ intDecStr (truncQ (PVE_THRESHOLD_NOPVC * 100)) ++ "%+GM",
         f := load (pathJoin outdir "perfusion_calib"),
         var := load (pathJoin outdir "perfusion_var_calib"),
         mask := some (gtMask gm_pve_asl PVE_THRESHOLD_NOPVC) },
       { suffix := " " ++ intDecStr (truncQ (PVE_THRESHOLD_NOPVC * 100)) ++ "%+WM",
         f := load (pathJoin outdir "perfusion_calib"),
         var := load (pathJoin outdir "perfusion_var_calib"),
         mask := some (gtMask wm_pve_asl PVE_THRESHOLD_NOPVC) }]

/-! Rational reference formulas for the I squared statistic, used both by
the claim model and by the theorem relating the embedding of i2 to exact
arithmetic. -/

/-- Weights of the I squared formula: reciprocals of the variances. -/
def i2_w (var : List ℚ) : List ℚ := var.map (fun x => 1 / x)

/-- Weighted mean of the I squared formula. -/
def i2_mu (val var : List ℚ) : ℚ :=
  (List.zipWith (fun a b => a * b) (i2_w var) val).sum / (i2_w var).sum

/-- Cochran Q of the I squared formula. -/
def i2_Qstat (val var : List ℚ) : ℚ :=
  (List.zipWith (fun a b => a * b) (i2_w var)
    (val.map (fun x => (x - i2_mu val var) * (x - i2_mu val var)))).sum

/-- The unrounded percentage 100*(Q-(n-1))/Q. -/
def i2_raw (val var : List ℚ) : ℚ :=
  100 * ((i2_Qstat val var - ((val.length : ℚ) - 1)) / i2_Qstat val var)

/-- Modelled from the spec: the claim's I2 statistic, the half-up rounding
of 100*(Q-(n-1))/Q (half-up rounding of x is the floor of x + 1/2). -/
def i2_claim (val var : List ℚ) : ℤ := ⌊i2_raw val var + 1/2⌋

/-! Transport lemmas between PyF arithmetic on finite values and exact
rational arithmetic. -/

theorem PyF.add_finite (a b : ℚ) : PyF.add (PyF.fin a) (PyF.fin b) = PyF.fin (a + b) := rfl

theorem PyF.add_fin_zero (x : PyF) : PyF.add x (PyF.fin 0) = x := by
  cases x <;> simp [PyF.add]

theorem PyF.mul_finite (a b : ℚ) : PyF.mul (PyF.fin a) (PyF.fin b) = PyF.fin (a * b) := rfl

theorem PyF.mul_fin_one (x : PyF) : PyF.mul x (PyF.fin 1) = x := by
  cases x <;> simp [PyF.mul]

theorem PyF.sub_finite (a b : ℚ) : PyF.sub (PyF.fin a) (PyF.fin b) = PyF.fin (a - b) := by
  simp [PyF.sub, PyF.neg, PyF.add, sub_eq_add_neg]

theorem PyF.div_finite (a b : ℚ) (h : b ≠ 0) :
    PyF.div (PyF.fin a) (PyF.fin b) = PyF.fin (a / b) := by
  simp [PyF.div, h]

theorem pySum_fin_aux (a : ℚ) (l : List ℚ) :
    List.foldl PyF.add (PyF.fin a) (l.map PyF.fin) = PyF.fin (a + l.sum) := by
  induction l generalizing a with
  | nil => simp
  | cons x xs ih => simp [PyF.add_finite, ih, add_assoc]

theorem pySum_map_fin (l : List ℚ) : pySum (l.map PyF.fin) = PyF.fin l.sum := by
  simpa using pySum_fin_aux 0 l

theorem zipWith_mul_map_fin (a b : List ℚ) :
    List.zipWith PyF.mul (a.map PyF.fin) (b.map PyF.fin) =
      (List.zipWith (fun x y => x * y) a b).map PyF.fin := by
  induction a generalizing b with
  | nil => simp
  | cons x xs ih => cases b <;> simp [ih, PyF.mul_finite]

theorem map_recip_fin (var : List ℚ) (h : ∀ x ∈ var, x ≠ 0) :
    (var.map PyF.fin).map (fun x => PyF.div (PyF.fin 1) x) =
      (var.map (fun x => 1 / x)).map PyF.fin := by
  induction var with
  | nil => simp
  | cons x xs ih =>
    have hx : x ≠ 0 := h x (List.mem_cons_self x xs)
    simp only [List.map_cons, PyF.div_finite 1 x hx]
    rw [ih (fun y hy => h y (List.mem_cons_of_mem x hy))]

theorem map_sq_sub_fin (val : List ℚ) (m : ℚ) :
    (val.map PyF.fin).map
        (fun x => PyF.mul (PyF.sub x (PyF.fin m)) (PyF.sub x (PyF.fin m))) =
      (val.map (fun x => (x - m) * (x - m))).map PyF.fin := by
  induction val with
  | nil => simp
  | cons x xs ih => simp [PyF.sub_finite, PyF.mul_finite, ih]

theorem i2_w_sum_pos (var : List ℚ) (hne : var ≠ []) (hpos : ∀ x ∈ var, 0 < x) :
    0 < (i2_w var).sum := by
  apply List.sum_pos
  · intro x hx
    simp only [i2_w, List.mem_map] at hx
    obtain ⟨y, hy, rfl⟩ := hx
    have := hpos y hy
    positivity
  · simp [i2_w, hne]

/-- Central computation lemma for claim C1: on finite inputs with positive
variances and nonzero Q, the embedding of i2 returns the truncation toward
zero of the exact value 100*(Q-(n-1))/Q + 1/2. -/
theorem i2_eq_trunc (val var : List ℚ) (hlen : val.length = var.length)
    (hne : var ≠ []) (hpos : ∀ x ∈ var, 0 < x) (hQ : i2_Qstat val var ≠ 0) :
    i2 (val.map PyF.fin) (var.map PyF.fin) = some (truncQ (i2_raw val var + 1/2)) := by
  have hnz : ∀ x ∈ var, x ≠ 0 := fun x hx => ne_of_gt (hpos x hx)
  have hemp : (var.map PyF.fin).isEmpty = false := by
    cases var with
    | nil => exact absurd rfl hne
    | cons a l => rfl
  have hsum := i2_w_sum_pos var hne hpos
  have hsum' : (i2_w var).sum ≠ 0 := ne_of_gt hsum
  rw [i2]
  rw [map_recip_fin var hnz]
  rw [hemp]
  simp only [Bool.false_eq_true, if_false]
  rw [show (var.map fun x => 1 / x) = i2_w var from rfl]
  rw [zipWith_mul_map_fin, pySum_map_fin, pySum_map_fin]
  have hmu : PyF.div (PyF.fin (List.zipWith (fun x y => x * y) (i2_w var) val).sum)
      (PyF.fin (i2_w var).sum) = PyF.fin (i2_mu val var) := by
    rw [PyF.div_finite _ _ hsum']
    rfl
  simp only [hmu]
  rw [map_sq_sub_fin val (i2_mu val var)]
  rw [zipWith_mul_map_fin, pySum_map_fin]
  rw [show (List.zipWith (fun x y => x * y) (i2_w var)
    (val.map (fun x => (x - i2_mu val var) * (x - i2_mu val var)))).sum =
    i2_Qstat val var from rfl]
  rw [List.length_map, PyF.sub_finite, PyF.div_finite _ _ hQ, PyF.mul_finite,
    PyF.add_finite]
  rfl

/-- Claim C1 counterexample: on the sample 0, 1 with variances 8, 8 the
exact statistic is -1500 percent; half-up rounding gives -1500 but the
code, truncating toward zero after adding one half, returns -1499. -/
theorem i2_counterexample :
    i2 [PyF.fin 0, PyF.fin 1] [PyF.fin 8, PyF.fin 8] = some (-1499) ∧
    i2_claim [0, 1] [8, 8] = -1500 ∧
    i2 [PyF.fin 0, PyF.fin 1] [PyF.fin 8, PyF.fin 8] ≠ some (i2_claim [0, 1] [8, 8]) := by
  refine ⟨by decide, by decide, by decide⟩

/-- Claim C1 (amended): the I2 statistic function returns, as an integer,
int(100*(Q-(n-1))/Q + 1/2) with the Python int() conversion truncating
toward zero; this is the half-up rounding whenever the shifted value is
non-negative, and negative statistics are returned as-is, not floored at
zero, but truncated toward zero rather than rounded half-up. -/
theorem i2_spec_amended (val var : List ℚ) (hlen : val.length = var.length)
    (hne : var ≠ []) (hpos : ∀ x ∈ var, 0 < x) (hQ : i2_Qstat val var ≠ 0) :
    i2 (val.map PyF.fin) (var.map PyF.fin) = some (truncQ (i2_raw val var + 1/2)) ∧
    (0 ≤ i2_raw val var + 1/2 → truncQ (i2_raw val var + 1/2) = i2_claim val var) := by
  constructor
  · exact i2_eq_trunc val var hlen hne hpos hQ
  · intro h
    simp only [truncQ, i2_claim]
    rw [if_pos h]

/-- Witness for i2_spec_amended at the concrete sample 0, 1 with
variances 8, 8. -/
theorem i2_spec_amended_witness :
    i2 (([0, 1] : List ℚ).map PyF.fin) (([8, 8] : List ℚ).map PyF.fin) =
      some (truncQ (i2_raw [0, 1] [8, 8] + 1/2)) :=
  (i2_spec_amended [0, 1] [8, 8] (by decide) (by decide) (by decide) (by decide)).1

theorem pySum_mid_zero (A B : List PyF) :
    pySum (A ++ PyF.fin 0 :: B) = pySum (A ++ B) := by
  simp [pySum, List.foldl_append, PyF.add_fin_zero]

theorem fin_of_isFiniteB (v : PyF) (h : v.isFiniteB = true) : ∃ q, v = PyF.fin q := by
  cases v with
  | fin q => exact ⟨q, rfl⟩
  | pinf => exact absurd h (by simp [PyF.isFiniteB])
  | ninf => exact absurd h (by simp [PyF.isFiniteB])
  | nan => exact absurd h (by simp [PyF.isFiniteB])

/-- Claim C2 counterexample: in the sample 5, infinity with variances 1, 0
the second precision is infinite and is replaced by zero, yet the element
still poisons the numerator (infinity times zero is NaN): removing it
yields 5, keeping it yields NaN, so it does contribute. -/
theorem mean_invvarweighted_counterexample :
    mean_invvarweighted [PyF.fin 5, PyF.pinf] [PyF.fin 1, PyF.fin 0] = PyF.nan ∧
    mean_invvarweighted [PyF.fin 5] [PyF.fin 1] = PyF.fin 5 ∧
    (PyF.div (PyF.fin 1) (PyF.fin 0)).isFiniteB = false ∧
    PyF.nan ≠ PyF.fin 5 := by
  refine ⟨by decide, by decide, by decide, by decide⟩

/-- Claim C2 (amended): the precision-weighted mean replaces every
non-finite precision by zero and returns sum(val*prec)/sum(prec); an
element whose precision is non-finite contributes to neither the numerator
nor the denominator provided its value entry is finite: deleting it leaves
the result unchanged. -/
theorem mean_invvarweighted_drop_zero_prec (val1 val2 var1 var2 : List PyF) (v w : PyF)
    (hlen : val1.length = var1.length)
    (hw : (PyF.div (PyF.fin 1) w).isFiniteB = false)
    (hv : v.isFiniteB = true) :
    mean_invvarweighted (val1 ++ v :: val2) (var1 ++ w :: var2) =
      mean_invvarweighted (val1 ++ val2) (var1 ++ var2) := by
  obtain ⟨q, rfl⟩ := fin_of_isFiniteB v hv
  simp only [mean_invvarweighted, List.map_append, List.map_cons]
  rw [if_neg (by rw [hw]; exact Bool.false_ne_true)]
  have hlen1 : val1.length =
      ((var1.map (fun x => PyF.div (PyF.fin 1) x)).map
        (fun p => if p.isFiniteB = true then p else PyF.fin 0)).length := by
    simp [hlen]
  rw [List.zipWith_append _ _ _ _ _ hlen1, List.zipWith_append _ _ _ _ _ hlen1]
  simp only [List.zipWith_cons_cons]
  rw [show PyF.mul (PyF.fin q) (PyF.fin 0) = PyF.fin 0 by
    rw [PyF.mul_finite]; norm_num]
  rw [pySum_mid_zero, pySum_mid_zero]

/-- Witness for mean_invvarweighted_drop_zero_prec on a concrete sample. -/
theorem mean_invvarweighted_drop_witness :
    mean_invvarweighted ([PyF.fin 2] ++ PyF.fin 7 :: [PyF.fin 4])
        ([PyF.fin 1] ++ PyF.fin 0 :: [PyF.fin 1]) =
      mean_invvarweighted ([PyF.fin 2] ++ [PyF.fin 4]) ([PyF.fin 1] ++ [PyF.fin 1]) :=
  mean_invvarweighted_drop_zero_prec [PyF.fin 2] [PyF.fin 4] [PyF.fin 1] [PyF.fin 1]
    (PyF.fin 7) (PyF.fin 0) (by decide) (by decide) (by decide)

theorem zipWith_mul_one_replicate (l : List PyF) :
    List.zipWith PyF.mul l (List.replicate l.length (PyF.fin 1)) = l := by
  induction l with
  | nil => simp
  | cons x xs ih => simp [List.replicate_succ, PyF.mul_fin_one, ih]

theorem pySum_replicate_one_aux (a : ℚ) (n : ℕ) :
    List.foldl PyF.add (PyF.fin a) (List.replicate n (PyF.fin 1)) = PyF.fin (a + n) := by
  induction n generalizing a with
  | zero => simp
  | succ m ih =>
    rw [List.replicate_succ, List.foldl_cons, PyF.add_finite, ih]
    push_cast
    ring_nf

theorem pySum_replicate_one (n : ℕ) :
    pySum (List.replicate n (PyF.fin 1)) = PyF.fin (n : ℚ) := by
  simpa using pySum_replicate_one_aux 0 n

/-- Claim C9: on a non-empty all-finite sample with every variance equal
to one, the precision-weighted mean coincides with the arithmetic mean
(registered as the Mean statistic, the wrapped numpy.mean). -/
theorem mean_invvarweighted_eq_mean_uniform_var (qs : List ℚ) (h : qs ≠ []) :
    mean_invvarweighted (qs.map PyF.fin) (List.replicate qs.length (PyF.fin 1)) =
      np_mean (qs.map PyF.fin) := by
  simp only [mean_invvarweighted, np_mean, List.map_replicate]
  rw [show PyF.div (PyF.fin 1) (PyF.fin 1) = PyF.fin 1 by
    rw [PyF.div_finite _ _ one_ne_zero]; norm_num]
  rw [show (if (PyF.fin 1).isFiniteB = true then PyF.fin 1 else PyF.fin 0) =
    PyF.fin 1 from rfl]
  rw [show qs.length = (qs.map PyF.fin).length by simp]
  rw [zipWith_mul_one_replicate, pySum_replicate_one]

/-- Witness for mean_invvarweighted_eq_mean_uniform_var on the sample
2, 4. -/
theorem mean_invvarweighted_eq_mean_witness :
    mean_invvarweighted (([2, 4] : List ℚ).map PyF.fin)
        (List.replicate ([2, 4] : List ℚ).length (PyF.fin 1)) =
      np_mean (([2, 4] : List ℚ).map PyF.fin) :=
  mean_invvarweighted_eq_mean_uniform_var [2, 4] (by decide)

/-! Lemmas about the dict model and the statistics loop. -/

theorem str_append_right_cancel {a b s : String} (h : a ++ s = b ++ s) : a = b := by
  apply String.ext
  have h2 := congrArg String.data h
  simp only [String.data_append] at h2
  exact List.append_cancel_right h2

theorem dictGet_cons (p : String × StatVal) (rest : StatsDict) (k : String) :
    dictGet (p :: rest) k = if p.1 == k then some p.2 else dictGet rest k := rfl

theorem dictGet_update_of_any (d : StatsDict) (k : String) (v : StatVal) :
    d.any (fun p => p.1 == k) = true →
    dictGet (d.map (fun p => if p.1 == k then (k, v) else p)) k = some v := by
  induction d with
  | nil => intro h; simp at h
  | cons p rest ih =>
    intro h
    rw [List.map_cons]
    by_cases hp : (p.1 == k) = true
    · rw [if_pos hp, dictGet_cons, if_pos (beq_self_eq_true k)]
    · rw [if_neg hp, dictGet_cons, if_neg hp]
      have h' : rest.any (fun p => p.1 == k) = true := by
        rw [List.any_cons] at h
        rcases Bool.or_eq_true_iff.mp h with hc | hc
        · exact absurd hc hp
        · exact hc
      exact ih h'

theorem dictGet_append_single (d : StatsDict) (k : String) (v : StatVal)
    (h : d.any (fun p => p.1 == k) = false) :
    dictGet (d ++ [(k, v)]) k = some v := by
  induction d with
  | nil =>
    rw [List.nil_append, dictGet_cons, if_pos (beq_self_eq_true k)]
  | cons p rest ih =>
    rw [List.any_cons, Bool.or_eq_false_iff] at h
    rw [List.cons_append, dictGet_cons,
      if_neg (by rw [h.1]; exact Bool.false_ne_true)]
    exact ih h.2

theorem dictGet_dictSet_self (d : StatsDict) (k : String) (v : StatVal) :
    dictGet (dictSet d k v) k = some v := by
  rw [dictSet]
  by_cases h : d.any (fun p => p.1 == k) = true
  · rw [if_pos h]
    exact dictGet_update_of_any d k v h
  · rw [if_neg h]
    exact dictGet_append_single d k v (Bool.eq_false_iff.mpr h)

theorem dictGet_map_update_ne (d : StatsDict) (k k' : String) (v : StatVal)
    (h : k' ≠ k) :
    dictGet (d.map (fun p => if p.1 == k then (k, v) else p)) k' = dictGet d k' := by
  have hk : (k == k') = false := beq_eq_false_iff_ne.mpr (Ne.symm h)
  induction d with
  | nil => rfl
  | cons p rest ih =>
    rw [List.map_cons]
    by_cases hp : (p.1 == k) = true
    · have hpk : p.1 = k := eq_of_beq hp
      have hpk' : (p.1 == k') = false := by rw [hpk]; exact hk
      rw [if_pos hp, dictGet_cons, dictGet_cons,
        if_neg (by rw [hk]; exact Bool.false_ne_true),
        if_neg (by rw [hpk']; exact Bool.false_ne_true)]
      exact ih
    · rw [if_neg hp]
      by_cases hq : (p.1 == k') = true
      · rw [dictGet_cons, dictGet_cons, if_pos hq, if_pos hq]
      · rw [dictGet_cons, dictGet_cons, if_neg hq, if_neg hq]
        exact ih

theorem dictGet_append_single_ne (d : StatsDict) (k k' : String) (v : StatVal)
    (h : k' ≠ k) :
    dictGet (d ++ [(k, v)]) k' = dictGet d k' := by
  have hk : (k == k') = false := beq_eq_false_iff_ne.mpr (Ne.symm h)
  induction d with
  | nil =>
    rw [List.nil_append, dictGet_cons,
      if_neg (by rw [hk]; exact Bool.false_ne_true)]
  | cons p rest ih =>
    rw [List.cons_append, dictGet_cons, dictGet_cons]
    by_cases hq : (p.1 == k') = true
    · rw [if_pos hq, if_pos hq]
    · rw [if_neg hq, if_neg hq]
      exact ih

theorem dictGet_dictSet_ne (d : StatsDict) (k k' : String) (v : StatVal)
    (h : k' ≠ k) :
    dictGet (dictSet d k v) k' = dictGet d k' := by
  rw [dictSet]
  by_cases hany : d.any (fun p => p.1 == k) = true
  · rw [if_pos hany]
    exact dictGet_map_update_ne d k k' v h
  · rw [if_neg hany]
    exact dictGet_append_single_ne d k k' v h

theorem runStatFns_err_below (fns : List (String × StatFn)) (stats : StatsDict)
    (suffix : String) (n min_nvoxels : ℕ) (sample svar : List PyF)
    (h : n < min_nvoxels) :
    (runStatFns stats fns suffix n min_nvoxels sample svar).2 = Option.none := by
  induction fns generalizing stats with
  | nil => rfl
  | cons q rest ih =>
    obtain ⟨name, fn⟩ := q
    rw [runStatFns, if_pos h]
    exact ih _

theorem runStatFns_preserve (fns : List (String × StatFn)) (stats : StatsDict)
    (suffix : String) (n min_nvoxels : ℕ) (sample svar : List PyF) (k : String)
    (h : ∀ p ∈ fns, p.1 ++ suffix ≠ k) :
    dictGet (runStatFns stats fns suffix n min_nvoxels sample svar).1 k =
      dictGet stats k := by
  induction fns generalizing stats with
  | nil => rfl
  | cons q rest ih =>
    obtain ⟨name, fn⟩ := q
    have hk : k ≠ name ++ suffix := Ne.symm (h _ (List.mem_cons_self _ _))
    have hrest : ∀ p ∈ rest, p.1 ++ suffix ≠ k :=
      fun p hp => h p (List.mem_cons_of_mem _ hp)
    by_cases hn : n < min_nvoxels
    · rw [runStatFns, if_pos hn, ih _ hrest]
      exact dictGet_dictSet_ne _ _ _ _ hk
    · rw [runStatFns, if_neg hn]
      cases hfn : fn sample svar with
      | ok v =>
        rw [ih _ hrest]
        exact dictGet_dictSet_ne _ _ _ _ hk
      | error e => rfl

theorem runStatFns_below_vals (fns : List (String × StatFn)) (stats : StatsDict)
    (suffix : String) (n min_nvoxels : ℕ) (sample svar : List PyF)
    (hnd : (fns.map (fun p => p.1 ++ suffix)).Nodup) (h : n < min_nvoxels) :
    ∀ p ∈ fns,
      dictGet (runStatFns stats fns suffix n min_nvoxels sample svar).1 (p.1 ++ suffix) =
        some StatVal.none := by
  induction fns generalizing stats with
  | nil => intro p hp; cases hp
  | cons q rest ih =>
    intro p hp
    obtain ⟨name, fn⟩ := q
    rw [List.map_cons, List.nodup_cons] at hnd
    rw [runStatFns, if_pos h]
    rcases List.mem_cons.mp hp with rfl | hp'
    · have hfresh : ∀ r ∈ rest, r.1 ++ suffix ≠ name ++ suffix := by
        intro r hr hc
        exact hnd.1 (hc ▸ List.mem_map_of_mem _ hr)
      rw [runStatFns_preserve rest _ _ _ _ _ _ _ hfresh]
      exact dictGet_dictSet_self _ _ _
    · exact ih _ hnd.2 p hp'

theorem runStatFns_ok_vals (fns : List (String × StatFn)) (stats : StatsDict)
    (suffix : String) (n min_nvoxels : ℕ) (sample svar : List PyF)
    (hnd : (fns.map (fun p => p.1 ++ suffix)).Nodup) (h : ¬ n < min_nvoxels)
    (herr : (runStatFns stats fns suffix n min_nvoxels sample svar).2 = Option.none) :
    ∀ p ∈ fns, ∃ v, p.2 sample svar = Except.ok v ∧
      dictGet (runStatFns stats fns suffix n min_nvoxels sample svar).1 (p.1 ++ suffix) =
        some v := by
  induction fns generalizing stats with
  | nil => intro p hp; cases hp
  | cons q rest ih =>
    intro p hp
    obtain ⟨name, fn⟩ := q
    rw [List.map_cons, List.nodup_cons] at hnd
    rw [runStatFns, if_neg h] at herr ⊢
    cases hfn : fn sample svar with
    | error e =>
      rw [hfn] at herr
      simp at herr
    | ok v =>
      rw [hfn] at herr
      dsimp only at herr ⊢
      rcases List.mem_cons.mp hp with rfl | hp'
      · refine ⟨v, hfn, ?_⟩
        have hfresh : ∀ r ∈ rest, r.1 ++ suffix ≠ name ++ suffix := by
          intro r hr hc
          exact hnd.1 (hc ▸ List.mem_map_of_mem _ hr)
        rw [runStatFns_preserve rest _ _ _ _ _ _ _ hfresh]
        exact dictGet_dictSet_self _ _ _
      · exact ih _ hnd.2 herr p hp'

theorem STATS_FNS_keys_nodup (suffix : String) :
    (STATS_FNS.map (fun p => p.1 ++ suffix)).Nodup := by
  have he : STATS_FNS.map (fun p => p.1 ++ suffix) =
      (STATS_FNS.map Prod.fst).map (fun s => s ++ suffix) := by
    rw [List.map_map]
    rfl
  rw [he]
  apply List.Nodup.map
  · intro a b hab
    exact str_append_right_cancel hab
  · decide

theorem nvoxels_key_fresh (suffix : String) :
    ∀ p ∈ STATS_FNS, p.1 ++ suffix ≠ "Nvoxels" ++ suffix := by
  intro p hp hc
  have h1 : p.1 = "Nvoxels" := str_append_right_cancel hc
  have hmem : p.1 ∈ STATS_FNS.map Prod.fst := List.mem_map_of_mem _ hp
  rw [h1] at hmem
  exact absurd hmem (by decide)

/-- Reduction of get_stats to the statistics loop once all three shape
checks pass. -/
theorem get_stats_run (stats : StatsDict) (img var_img : NDArray) (roi : BoolArray)
    (suffix : String) (ignore_nan ignore_inf : Bool) (min_nvoxels : ℕ)
    (mask : Option BoolArray)
    (h1 : img.shape = roi.shape) (h2 : var_img.shape = roi.shape)
    (h3 : ∀ m, mask = some m → m.shape = roi.shape) :
    get_stats stats img var_img roi suffix ignore_nan ignore_inf min_nvoxels mask =
      runStatFns
        (dictSet stats ("Nvoxels" ++ suffix)
          (StatVal.int
            (((extract (effectiveRoi img roi ignore_nan ignore_inf mask) img.data).length : ℤ))))
        STATS_FNS suffix
        (extract (effectiveRoi img roi ignore_nan ignore_inf mask) img.data).length
        min_nvoxels
        (extract (effectiveRoi img roi ignore_nan ignore_inf mask) img.data)
        (extract (effectiveRoi img roi ignore_nan ignore_inf mask) var_img.data) := by
  have hmask : ¬(maskMismatch mask roi = true) := by
    cases mask with
    | none => simp [maskMismatch]
    | some m => simp [maskMismatch, h3 m rfl]
  rw [get_stats.eq_def, if_neg (by simp [h1]), if_neg (by simp [h2]), if_neg hmask]

/-- Helper: the Nvoxels field is always written and equals the filtered
sample length, whatever the statistics loop later does. -/
theorem get_stats_nvoxels_entry (stats : StatsDict) (img var_img : NDArray)
    (roi : BoolArray) (suffix : String) (ignore_nan ignore_inf : Bool)
    (min_nvoxels : ℕ) (mask : Option BoolArray)
    (h1 : img.shape = roi.shape) (h2 : var_img.shape = roi.shape)
    (h3 : ∀ m, mask = some m → m.shape = roi.shape) :
    dictGet (get_stats stats img var_img roi suffix ignore_nan ignore_inf min_nvoxels mask).1
        ("Nvoxels" ++ suffix) =
      some (StatVal.int
        (((extract (effectiveRoi img roi ignore_nan ignore_inf mask) img.data).length : ℤ))) := by
  rw [get_stats_run stats img var_img roi suffix ignore_nan ignore_inf min_nvoxels mask h1 h2 h3]
  rw [runStatFns_preserve STATS_FNS _ _ _ _ _ _ _ (nvoxels_key_fresh suffix)]
  exact dictGet_dictSet_self _ _ _

/-- Helper: at or above the minimum voxel count, when no statistic raised,
every registered statistic entry is the function value on the extracted
sample and variances. -/
theorem get_stats_ok_entries (stats : StatsDict) (img var_img : NDArray)
    (roi : BoolArray) (suffix : String) (ignore_nan ignore_inf : Bool)
    (min_nvoxels : ℕ) (mask : Option BoolArray)
    (h1 : img.shape = roi.shape) (h2 : var_img.shape = roi.shape)
    (h3 : ∀ m, mask = some m → m.shape = roi.shape)
    (hge : min_nvoxels ≤
      (extract (effectiveRoi img roi ignore_nan ignore_inf mask) img.data).length)
    (herr : (get_stats stats img var_img roi suffix ignore_nan ignore_inf min_nvoxels mask).2 =
      Option.none) :
    ∀ p ∈ STATS_FNS, ∃ v,
      p.2 (extract (effectiveRoi img roi ignore_nan ignore_inf mask) img.data)
          (extract (effectiveRoi img roi ignore_nan ignore_inf mask) var_img.data) =
        Except.ok v ∧
      dictGet (get_stats stats img var_img roi suffix ignore_nan ignore_inf min_nvoxels mask).1
        (p.1 ++ suffix) = some v := by
  rw [get_stats_run stats img var_img roi suffix ignore_nan ignore_inf min_nvoxels mask
    h1 h2 h3] at herr ⊢
  exact runStatFns_ok_vals _ _ _ _ _ _ _ (STATS_FNS_keys_nodup suffix)
    (not_lt.mpr hge) herr

/-- Claim C3: whenever the three shape checks pass, the Nvoxels field is
always written and equals the true post-filtering voxel count; when that
count is below min_nvoxels every registered statistic is written as the
Python None value (not NaN, not zero) and no exception is raised; when the
count reaches min_nvoxels and no statistic function raises, every
registered statistic equals its function applied to the extracted sample
and sample variances. -/
theorem get_stats_min_nvoxels_policy (stats : StatsDict) (img var_img : NDArray)
    (roi : BoolArray) (suffix : String) (ignore_nan ignore_inf : Bool)
    (min_nvoxels : ℕ) (mask : Option BoolArray)
    (h1 : img.shape = roi.shape) (h2 : var_img.shape = roi.shape)
    (h3 : ∀ m, mask = some m → m.shape = roi.shape) :
    dictGet (get_stats stats img var_img roi suffix ignore_nan ignore_inf min_nvoxels mask).1
        ("Nvoxels" ++ suffix) =
      some (StatVal.int
        (((extract (effectiveRoi img roi ignore_nan ignore_inf mask) img.data).length : ℤ))) ∧
    ((extract (effectiveRoi img roi ignore_nan ignore_inf mask) img.data).length < min_nvoxels →
      (get_stats stats img var_img roi suffix ignore_nan ignore_inf min_nvoxels mask).2 =
        Option.none ∧
      ∀ p ∈ STATS_FNS,
        dictGet (get_stats stats img var_img roi suffix ignore_nan ignore_inf min_nvoxels mask).1
          (p.1 ++ suffix) = some StatVal.none) ∧
    (min_nvoxels ≤ (extract (effectiveRoi img roi ignore_nan ignore_inf mask) img.data).length →
      (get_stats stats img var_img roi suffix ignore_nan ignore_inf min_nvoxels mask).2 =
        Option.none →
      ∀ p ∈ STATS_FNS, ∃ v,
        p.2 (extract (effectiveRoi img roi ignore_nan ignore_inf mask) img.data)
            (extract (effectiveRoi img roi ignore_nan ignore_inf mask) var_img.data) =
          Except.ok v ∧
        dictGet (get_stats stats img var_img roi suffix ignore_nan ignore_inf min_nvoxels mask).1
          (p.1 ++ suffix) = some v) := by
  refine ⟨get_stats_nvoxels_entry stats img var_img roi suffix ignore_nan ignore_inf
    min_nvoxels mask h1 h2 h3, ?_, ?_⟩
  · intro hlt
    rw [get_stats_run stats img var_img roi suffix ignore_nan ignore_inf min_nvoxels mask
      h1 h2 h3]
    exact ⟨runStatFns_err_below _ _ _ _ _ _ _ hlt,
      runStatFns_below_vals _ _ _ _ _ _ _ (STATS_FNS_keys_nodup suffix) hlt⟩
  · intro hge herr
    exact get_stats_ok_entries stats img var_img roi suffix ignore_nan ignore_inf
      min_nvoxels mask h1 h2 h3 hge herr

/-- Witness for get_stats_min_nvoxels_policy: a two-voxel sample with the
default minimum of ten voxels. -/
theorem get_stats_min_nvoxels_policy_witness :
    ((⟨[2], [PyF.fin 1, PyF.fin 2]⟩ : NDArray).shape =
      (⟨[2], [true, true]⟩ : BoolArray).shape) ∧
    dictGet (get_stats [] ⟨[2], [PyF.fin 1, PyF.fin 2]⟩ ⟨[2], [PyF.fin 1, PyF.fin 1]⟩
        ⟨[2], [true, true]⟩ "" true true 10 Option.none).1 ("Nvoxels" ++ "") =
      some (StatVal.int
        (((extract (effectiveRoi ⟨[2], [PyF.fin 1, PyF.fin 2]⟩ ⟨[2], [true, true]⟩ true true
          Option.none) [PyF.fin 1, PyF.fin 2]).length : ℤ))) :=
  ⟨rfl,
    (get_stats_min_nvoxels_policy [] ⟨[2], [PyF.fin 1, PyF.fin 2]⟩
      ⟨[2], [PyF.fin 1, PyF.fin 1]⟩ ⟨[2], [true, true]⟩ "" true true 10 Option.none
      rfl rfl (fun m hm => Option.noConfusion hm)).1⟩

theorem runStatFns_err_msg (stats : StatsDict) (suffix : String) (n min_nvoxels : ℕ)
    (sample svar : List PyF) :
    ∀ e, (runStatFns stats STATS_FNS suffix n min_nvoxels sample svar).2 = some e →
      e = "int conversion of non-finite value" := by
  intro e he
  by_cases h : n < min_nvoxels
  · rw [runStatFns_err_below _ _ _ _ _ _ _ h] at he
    exact Option.noConfusion he
  · simp only [STATS_FNS, runStatFns, if_neg h, _addvar, i2Stat] at he
    cases hi : i2 sample svar with
    | some z => rw [hi] at he; simp at he
    | none =>
      rw [hi] at he
      simp at he
      exact he.symm

/-- Claim C8: get_stats raises a shape-mismatch error exactly when the
value image, the variance image, or a supplied extra mask disagrees with
the ROI shape, each with its own distinct message, and in each of these
cases the statistics dict is returned unchanged; when all shapes agree, no
shape-mismatch message can be raised (the only possible exception is the
int() conversion inside the I2 statistic). -/
theorem get_stats_shape_error_policy (stats : StatsDict) (img var_img : NDArray)
    (roi : BoolArray) (suffix : String) (ignore_nan ignore_inf : Bool)
    (min_nvoxels : ℕ) (mask : Option BoolArray) :
    (img.shape ≠ roi.shape →
      get_stats stats img var_img roi suffix ignore_nan ignore_inf min_nvoxels mask =
        (stats, some "Image must have same dimensions as ROI")) ∧
    (img.shape = roi.shape → var_img.shape ≠ roi.shape →
      get_stats stats img var_img roi suffix ignore_nan ignore_inf min_nvoxels mask =
        (stats, some "Variance image must have same dimensions as ROI")) ∧
    (∀ m, mask = some m → img.shape = roi.shape → var_img.shape = roi.shape →
      m.shape ≠ roi.shape →
      get_stats stats img var_img roi suffix ignore_nan ignore_inf min_nvoxels mask =
        (stats, some "Mask must have same dimensions as ROI")) ∧
    (img.shape = roi.shape → var_img.shape = roi.shape →
      (∀ m, mask = some m → m.shape = roi.shape) →
      ∀ e, (get_stats stats img var_img roi suffix ignore_nan ignore_inf min_nvoxels mask).2 =
          some e →
        e ≠ "Image must have same dimensions as ROI" ∧
        e ≠ "Variance image must have same dimensions as ROI" ∧
        e ≠ "Mask must have same dimensions as ROI") ∧
    (("Image must have same dimensions as ROI" : String) ≠
        "Variance image must have same dimensions as ROI" ∧
      ("Image must have same dimensions as ROI" : String) ≠
        "Mask must have same dimensions as ROI" ∧
      ("Variance image must have same dimensions as ROI" : String) ≠
        "Mask must have same dimensions as ROI") := by
  refine ⟨?_, ?_, ?_, ?_, by decide, by decide, by decide⟩
  · intro h
    rw [get_stats.eq_def, if_pos h]
  · intro h1 h2
    rw [get_stats.eq_def, if_neg (by simp [h1]), if_pos h2]
  · intro m hm h1 h2 hmm
    subst hm
    rw [get_stats.eq_def, if_neg (by simp [h1]), if_neg (by simp [h2]),
      if_pos (by simp [maskMismatch, hmm])]
  · intro h1 h2 h3 e he
    rw [get_stats_run stats img var_img roi suffix ignore_nan ignore_inf min_nvoxels mask
      h1 h2 h3] at he
    have := runStatFns_err_msg _ _ _ _ _ _ e he
    subst this
    refine ⟨by decide, by decide, by decide⟩

/-- Witness for get_stats_shape_error_policy: a mismatched value image
leaves the statistics dict unchanged and raises the image message. -/
theorem get_stats_shape_error_policy_witness :
    ((⟨[3], [PyF.fin 1]⟩ : NDArray).shape ≠ (⟨[1], [true]⟩ : BoolArray).shape) ∧
    get_stats [("name", StatVal.int 0)] ⟨[3], [PyF.fin 1]⟩ ⟨[1], [PyF.fin 1]⟩
        ⟨[1], [true]⟩ "" true true 10 Option.none =
      ([("name", StatVal.int 0)], some "Image must have same dimensions as ROI") :=
  ⟨by decide,
    (get_stats_shape_error_policy [("name", StatVal.int 0)] ⟨[3], [PyF.fin 1]⟩
      ⟨[1], [PyF.fin 1]⟩ ⟨[1], [true]⟩ "" true true 10 Option.none).1 (by decide)⟩

theorem getD_zipWith_and (a b : List Bool) (i : ℕ) (ha : i < a.length)
    (hb : i < b.length) :
    (List.zipWith (fun x y => x && y) a b).getD i false =
      (a.getD i false && b.getD i false) := by
  induction a generalizing b i with
  | nil => exact absurd ha (by simp)
  | cons x xs ih =>
    cases b with
    | nil => exact absurd hb (by simp)
    | cons y ys =>
      cases i with
      | zero => rfl
      | succ j =>
        simp only [List.zipWith_cons_cons, List.getD_cons_succ]
        exact ih ys j (by simpa using ha) (by simpa using hb)

theorem getD_map_pyf (f : PyF → Bool) (l : List PyF) (i : ℕ) (hi : i < l.length) :
    (l.map f).getD i false = f (l.getD i PyF.nan) := by
  induction l generalizing i with
  | nil => exact absurd hi (by simp)
  | cons x xs ih =>
    cases i with
    | zero => rfl
    | succ j =>
      simp only [List.map_cons, List.getD_cons_succ]
      exact ih j (by simpa using hi)

theorem isNanB_eq_false_of_isFiniteB (x : PyF) (h : x.isFiniteB = true) :
    x.isNanB = false := by
  cases x <;> simp [PyF.isNanB, PyF.isFiniteB] at h ⊢

theorem effectiveRoi_none_eq (img : NDArray) (roi : BoolArray) :
    effectiveRoi img roi true true Option.none =
      List.zipWith (fun a b => a && b)
        (List.zipWith (fun a b => a && b) roi.data (img.data.map (fun x => !x.isNanB)))
        (img.data.map (fun x => x.isFiniteB)) := rfl

theorem effectiveRoi_some_eq (img : NDArray) (roi : BoolArray) (m : BoolArray) :
    effectiveRoi img roi true true (some m) =
      List.zipWith (fun a b => a && b)
        (List.zipWith (fun a b => a && b)
          (List.zipWith (fun a b => a && b) roi.data (img.data.map (fun x => !x.isNanB)))
          (img.data.map (fun x => x.isFiniteB))) m.data := rfl

theorem effectiveRoi_length (img : NDArray) (roi : BoolArray) (mask : Option BoolArray)
    (hl1 : img.data.length = roi.data.length)
    (hl3 : ∀ m, mask = some m → m.data.length = roi.data.length) :
    (effectiveRoi img roi true true mask).length = roi.data.length := by
  cases mask with
  | none => simp [effectiveRoi_none_eq, List.length_zipWith, hl1]
  | some m =>
    have hm := hl3 m rfl
    simp [effectiveRoi_some_eq, List.length_zipWith, hl1, hm]

theorem effectiveRoi_getD_true (img : NDArray) (roi : BoolArray) (mask : Option BoolArray)
    (i : ℕ) (hl1 : img.data.length = roi.data.length)
    (hl3 : ∀ m, mask = some m → m.data.length = roi.data.length)
    (hi : i < roi.data.length)
    (hroi : roi.data.getD i false = true)
    (hmask : ∀ m, mask = some m → m.data.getD i false = true)
    (hfin : (img.data.getD i PyF.nan).isFiniteB = true) :
    (effectiveRoi img roi true true mask).getD i false = true := by
  have hii : i < img.data.length := hl1 ▸ hi
  have h2 : (List.zipWith (fun a b => a && b) roi.data
      (img.data.map (fun x => !x.isNanB))).getD i false = true := by
    rw [getD_zipWith_and _ _ _ hi (by simpa using hii),
      getD_map_pyf _ _ _ hii, hroi, isNanB_eq_false_of_isFiniteB _ hfin]
    decide
  have hl2' : (List.zipWith (fun a b => a && b) roi.data
      (img.data.map (fun x => !x.isNanB))).length = roi.data.length := by
    simp [List.length_zipWith, hl1]
  have h3' : (List.zipWith (fun a b => a && b)
      (List.zipWith (fun a b => a && b) roi.data (img.data.map (fun x => !x.isNanB)))
      (img.data.map (fun x => x.isFiniteB))).getD i false = true := by
    rw [getD_zipWith_and _ _ _ (by rw [hl2']; exact hi) (by simpa using hii),
      getD_map_pyf _ _ _ hii, h2, hfin]
    decide
  cases mask with
  | none => rw [effectiveRoi_none_eq]; exact h3'
  | some m =>
    have hm := hl3 m rfl
    have hl3' : (List.zipWith (fun a b => a && b)
        (List.zipWith (fun a b => a && b) roi.data (img.data.map (fun x => !x.isNanB)))
        (img.data.map (fun x => x.isFiniteB))).length = roi.data.length := by
      simp [List.length_zipWith, hl1]
    rw [effectiveRoi_some_eq,
      getD_zipWith_and _ _ _ (by rw [hl3']; exact hi) (by rw [hm]; exact hi),
      h3', hmask m rfl]
    decide

theorem extract_pair_mem (eff : List Bool) (xs ys : List PyF) (i : ℕ)
    (he : i < eff.length) (hx : i < xs.length) (hy : i < ys.length)
    (ht : eff.getD i false = true) :
    (xs.getD i PyF.nan, ys.getD i PyF.nan) ∈
      List.zip (extract eff xs) (extract eff ys) := by
  induction eff generalizing xs ys i with
  | nil => exact absurd he (by simp)
  | cons b bs ih =>
    cases xs with
    | nil => exact absurd hx (by simp)
    | cons x xr =>
      cases ys with
      | nil => exact absurd hy (by simp)
      | cons y yr =>
        cases i with
        | zero =>
          have hb : b = true := ht
          subst hb
          simp [extract]
        | succ j =>
          have hj : j < bs.length := by simpa using he
          have hjx : j < xr.length := by simpa using hx
          have hjy : j < yr.length := by simpa using hy
          have ht' : bs.getD j false = true := ht
          cases b with
          | true =>
            simp only [extract, List.zip_cons_cons, List.getD_cons_succ]
            exact List.mem_cons_of_mem _ (ih xr yr j hj hjx hjy ht')
          | false =>
            simp only [extract, List.getD_cons_succ]
            exact ih xr yr j hj hjx hjy ht'

theorem extract_length_pos (eff : List Bool) (xs ys : List PyF) (i : ℕ)
    (he : i < eff.length) (hx : i < xs.length) (hy : i < ys.length)
    (ht : eff.getD i false = true) :
    0 < (extract eff xs).length := by
  have hmem := extract_pair_mem eff xs ys i he hx hy ht
  have hzip := List.ne_nil_of_mem hmem
  have hlen : 0 < (List.zip (extract eff xs) (extract eff ys)).length :=
    List.length_pos.mpr hzip
  rw [List.length_zip] at hlen
  exact lt_of_lt_of_le hlen (min_le_left _ _)

/-- Claim C10: with the default NaN and Inf filters enabled, the validity
filtering applies to the value image only: a voxel inside the ROI and the
extra mask whose value is finite is retained in the effective ROI even
when its variance is NaN or infinite; the retained pair of value and
unfiltered variance appears in the extracted sample, the voxel is counted
in Nvoxels (which is therefore positive), and the extracted sample
variances are what every registered statistic function receives. -/
theorem get_stats_var_not_filtered (stats : StatsDict) (img var_img : NDArray)
    (roi : BoolArray) (suffix : String) (min_nvoxels : ℕ) (mask : Option BoolArray)
    (i : ℕ)
    (h1 : img.shape = roi.shape) (h2 : var_img.shape = roi.shape)
    (h3 : ∀ m, mask = some m → m.shape = roi.shape)
    (hl1 : img.data.length = roi.data.length)
    (hl2 : var_img.data.length = roi.data.length)
    (hl3 : ∀ m, mask = some m → m.data.length = roi.data.length)
    (hi : i < roi.data.length)
    (hroi : roi.data.getD i false = true)
    (hmask : ∀ m, mask = some m → m.data.getD i false = true)
    (hfin : (img.data.getD i PyF.nan).isFiniteB = true)
    (hvar : (var_img.data.getD i PyF.nan).isFiniteB = false) :
    (effectiveRoi img roi true true mask).getD i false = true ∧
    (img.data.getD i PyF.nan, var_img.data.getD i PyF.nan) ∈
      List.zip (extract (effectiveRoi img roi true true mask) img.data)
        (extract (effectiveRoi img roi true true mask) var_img.data) ∧
    0 < (extract (effectiveRoi img roi true true mask) img.data).length ∧
    dictGet (get_stats stats img var_img roi suffix true true min_nvoxels mask).1
        ("Nvoxels" ++ suffix) =
      some (StatVal.int
        (((extract (effectiveRoi img roi true true mask) img.data).length : ℤ))) ∧
    (min_nvoxels ≤ (extract (effectiveRoi img roi true true mask) img.data).length →
      (get_stats stats img var_img roi suffix true true min_nvoxels mask).2 = Option.none →
      ∀ p ∈ STATS_FNS, ∃ v,
        p.2 (extract (effectiveRoi img roi true true mask) img.data)
            (extract (effectiveRoi img roi true true mask) var_img.data) =
          Except.ok v ∧
        dictGet (get_stats stats img var_img roi suffix true true min_nvoxels mask).1
          (p.1 ++ suffix) = some v) := by
  have heff := effectiveRoi_getD_true img roi mask i hl1 hl3 hi hroi hmask hfin
  have hel := effectiveRoi_length img roi mask hl1 hl3
  have hie : i < (effectiveRoi img roi true true mask).length := by rw [hel]; exact hi
  have hix : i < img.data.length := hl1 ▸ hi
  have hiy : i < var_img.data.length := hl2 ▸ hi
  refine ⟨heff, extract_pair_mem _ _ _ _ hie hix hiy heff,
    extract_length_pos _ _ var_img.data _ hie hix hiy heff, ?_, ?_⟩
  · exact get_stats_nvoxels_entry stats img var_img roi suffix true true
      min_nvoxels mask h1 h2 h3
  · intro hge herr
    exact get_stats_ok_entries stats img var_img roi suffix true true
      min_nvoxels mask h1 h2 h3 hge herr

/-- Witness for get_stats_var_not_filtered: the middle voxel has NaN
variance and finite value and is retained and counted. -/
theorem get_stats_var_not_filtered_witness :
    (effectiveRoi ⟨[3], [PyF.fin 1, PyF.fin 2, PyF.fin 3]⟩ ⟨[3], [true, true, true]⟩
      true true Option.none).getD 1 false = true ∧
    dictGet (get_stats [] ⟨[3], [PyF.fin 1, PyF.fin 2, PyF.fin 3]⟩
        ⟨[3], [PyF.fin 1, PyF.nan, PyF.fin 1]⟩ ⟨[3], [true, true, true]⟩ "" true true 1
        Option.none).1 ("Nvoxels" ++ "") =
      some (StatVal.int
        (((extract (effectiveRoi ⟨[3], [PyF.fin 1, PyF.fin 2, PyF.fin 3]⟩
          ⟨[3], [true, true, true]⟩ true true Option.none)
          [PyF.fin 1, PyF.fin 2, PyF.fin 3]).length : ℤ))) := by
  have h := get_stats_var_not_filtered [] ⟨[3], [PyF.fin 1, PyF.fin 2, PyF.fin 3]⟩
    ⟨[3], [PyF.fin 1, PyF.nan, PyF.fin 1]⟩ ⟨[3], [true, true, true]⟩ "" 1 Option.none 1
    rfl rfl (fun m hm => Option.noConfusion hm) rfl rfl
    (fun m hm => Option.noConfusion hm) (by decide) (by decide)
    (fun m hm => Option.noConfusion hm) (by decide) (by decide)
  exact ⟨h.1, h.2.2.2.1⟩

/-- Mathematical reading of strictly greater than a rational threshold
for a double: a finite value above the threshold, or plus-infinity; NaN
and minus-infinity are never strictly greater. -/
def StrictlyAboveQ (x : PyF) (t : ℚ) : Prop :=
  x = PyF.pinf ∨ ∃ q, x = PyF.fin q ∧ t < q

theorem gtB_iff (x : PyF) (t : ℚ) :
    PyF.gtB x (PyF.fin t) = true ↔ StrictlyAboveQ x t := by
  cases x <;> simp [PyF.gtB, StrictlyAboveQ]

theorem gtMask_spec (a : NDArray) (t : ℚ) :
    (gtMask a t).shape = a.shape ∧
    (gtMask a t).data.length = a.data.length ∧
    ∀ i, i < a.data.length →
      ((gtMask a t).data.getD i false = true ↔ StrictlyAboveQ (a.data.getD i PyF.nan) t) := by
  refine ⟨rfl, by simp [gtMask], ?_⟩
  intro i hi
  rw [show (gtMask a t).data = a.data.map (fun x => PyF.gtB x (PyF.fin t)) from rfl]
  rw [getD_map_pyf _ _ _ hi]
  exact gtB_iff _ t

/-- Claim C6: for the structural and MNI ROI-addition operations, the
record appended has a boolean native mask over the full transformed grid,
with a voxel true exactly when the transformed intensity is strictly
greater than the threshold, and false otherwise; in particular every true
voxel has transformed intensity strictly above the threshold. -/
theorem roi_binarization (aw : AW) (rois : List ROIRecord) (roi : NDArray)
    (name : String) (ref mni2struc : NDArray) (struct2asl : Mat) (t : ℚ) :
    (∀ rec ∈ (add_struct_roi aw rois roi name ref struct2asl t).drop rois.length,
      rec.mask_native.shape =
        (_transform aw roi Option.none ref (some struct2asl) Option.none false (1/2)).shape ∧
      rec.mask_native.data.length =
        (_transform aw roi Option.none ref (some struct2asl) Option.none false (1/2)).data.length ∧
      ∀ i, i < (_transform aw roi Option.none ref (some struct2asl) Option.none false
          (1/2)).data.length →
        (rec.mask_native.data.getD i false = true ↔
          StrictlyAboveQ
            ((_transform aw roi Option.none ref (some struct2asl) Option.none false
              (1/2)).data.getD i PyF.nan) t)) ∧
    (∀ rec ∈ (add_mni_roi aw rois roi name mni2struc ref struct2asl t).drop rois.length,
      rec.mask_native.shape =
        (_transform aw roi (some mni2struc) ref Option.none (some struct2asl) false
          (1/2)).shape ∧
      rec.mask_native.data.length =
        (_transform aw roi (some mni2struc) ref Option.none (some struct2asl) false
          (1/2)).data.length ∧
      ∀ i, i < (_transform aw roi (some mni2struc) ref Option.none (some struct2asl) false
          (1/2)).data.length →
        (rec.mask_native.data.getD i false = true ↔
          StrictlyAboveQ
            ((_transform aw roi (some mni2struc) ref Option.none (some struct2asl) false
              (1/2)).data.getD i PyF.nan) t)) := by
  constructor
  · intro rec hrec
    simp only [add_struct_roi, List.drop_left] at hrec
    rw [List.mem_singleton.mp hrec]
    exact gtMask_spec _ t
  · intro rec hrec
    simp only [add_mni_roi, List.drop_left] at hrec
    rw [List.mem_singleton.mp hrec]
    exact gtMask_spec _ t

/-- Witness for roi_binarization: a one-voxel structural ROI of intensity
one binarized at one half is true, and one is strictly above one half. -/
theorem roi_binarization_witness :
    StrictlyAboveQ (PyF.fin 1) (1/2) ∧
    (gtMask ⟨[1], [PyF.fin 1]⟩ (1/2)).data.getD 0 false = true := by
  have h := (roi_binarization (fun img _ _ _ _ => img) [] ⟨[1], [PyF.fin 1]⟩ "r"
    ⟨[1], [PyF.fin 0]⟩ ⟨[1], [PyF.fin 0]⟩ [] (1/2)).1
  have hmem : ({ name := "r", mask_native := (gtMask ⟨[1], [PyF.fin 1]⟩ (1/2)),
                 roi_native := (some ⟨[1], [PyF.fin 1]⟩),
                 roi_struct := (some ⟨[1], [PyF.fin 1]⟩),
                 roi_mni := Option.none } : ROIRecord) ∈
      (add_struct_roi (fun img _ _ _ _ => img) [] ⟨[1], [PyF.fin 1]⟩ "r"
        ⟨[1], [PyF.fin 0]⟩ [] (1/2)).drop ([] : List ROIRecord).length := by
    decide
  have habove : StrictlyAboveQ (PyF.fin 1) (1/2) := Or.inr ⟨1, rfl, by norm_num⟩
  refine ⟨habove, ?_⟩
  exact ((h _ hmem).2.2 0 (by decide)).mpr habove

theorem add_mni_roi_eq (aw : AW) (rois : List ROIRecord) (roi : NDArray) (name : String)
    (mni2struc ref : NDArray) (struct2asl : Mat) (t : ℚ) :
    add_mni_roi aw rois roi name mni2struc ref struct2asl t =
      rois ++ [{ name := name,
                 mask_native := (gtMask (_transform aw roi (some mni2struc) ref Option.none
                   (some struct2asl) false (1/2)) t),
                 roi_native := (some (_transform aw roi (some mni2struc) ref Option.none
                   (some struct2asl) false (1/2))),
                 roi_struct := Option.none,
                 roi_mni := some roi }] := rfl

theorem atlas_foldl_decomp (aw : AW) (g : AtlasLabel → NDArray) (w ref : NDArray)
    (mat : Mat) :
    ∀ (labels : List AtlasLabel) (rois : List ROIRecord),
      labels.foldl
          (fun acc label => add_mni_roi aw acc (g label) label.name w ref mat 50) rois =
        rois ++ labels.map (fun label =>
          { name := label.name,
            mask_native := (gtMask (_transform aw (g label) (some w) ref Option.none
              (some mat) false (1/2)) 50),
            roi_native := (some (_transform aw (g label) (some w) ref Option.none
              (some mat) false (1/2))),
            roi_struct := Option.none,
            roi_mni := some (g label) }) := by
  intro labels
  induction labels with
  | nil => intro rois; simp
  | cons l ls ih =>
    intro rois
    rw [List.foldl_cons, ih, add_mni_roi_eq, List.map_cons, List.append_assoc,
      List.singleton_append]

/-- Claim C7: under the transform-collaborator contract (the output of the
warp engine lies on the reference grid) and the input contract for native
ROI files (the supplied mask is on the acquisition grid), every record
appended by each of the four ROI-addition operations carries a boolean
native mask whose shape is the acquisition grid shape. -/
theorem mask_native_shape_invariant (grid : List ℕ) (aw : AW)
    (haw : ∀ img warp ref premat postmat, (aw img warp ref premat postmat).shape = ref.shape)
    (ref : NDArray) (href : ref.shape = grid) :
    (∀ (rois : List ROIRecord) (roi : BoolArray) (name : String), roi.shape = grid →
      ∀ rec ∈ (add_native_roi rois roi name).drop rois.length,
        rec.mask_native.shape = grid) ∧
    (∀ (rois : List ROIRecord) (roi : NDArray) (name : String) (struct2asl : Mat) (t : ℚ),
      ∀ rec ∈ (add_struct_roi aw rois roi name ref struct2asl t).drop rois.length,
        rec.mask_native.shape = grid) ∧
    (∀ (rois : List ROIRecord) (roi : NDArray) (name : String) (mni2struc : NDArray)
        (struct2asl : Mat) (t : ℚ),
      ∀ rec ∈ (add_mni_roi aw rois roi name mni2struc ref struct2asl t).drop rois.length,
        rec.mask_native.shape = grid) ∧
    (∀ (getDesc : String → AtlasDesc) (loadAtlas : String → ℕ → AtlasLabel → NDArray)
        (rois : List ROIRecord) (mni2struc_warp : NDArray) (struct2asl_mat : Mat)
        (atlas_name : String) (resolution : ℕ) (t : ℚ),
      ∀ rec ∈ (add_rois_from_atlas aw getDesc loadAtlas rois mni2struc_warp ref
          struct2asl_mat atlas_name resolution t).drop rois.length,
        rec.mask_native.shape = grid) := by
  refine ⟨?_, ?_, ?_, ?_⟩
  · intro rois roi name hroi rec hrec
    simp only [add_native_roi, List.drop_left] at hrec
    rw [List.mem_singleton.mp hrec]
    exact hroi
  · intro rois roi name struct2asl t rec hrec
    simp only [add_struct_roi, List.drop_left] at hrec
    rw [List.mem_singleton.mp hrec]
    rw [show (gtMask (_transform aw roi Option.none ref (some struct2asl) Option.none
      false (1/2)) t).shape =
      (_transform aw roi Option.none ref (some struct2asl) Option.none false (1/2)).shape
      from rfl]
    rw [show (_transform aw roi Option.none ref (some struct2asl) Option.none false
      (1/2)).shape = (aw roi Option.none ref (some struct2asl) Option.none).shape from rfl]
    rw [haw, href]
  · intro rois roi name mni2struc struct2asl t rec hrec
    simp only [add_mni_roi, List.drop_left] at hrec
    rw [List.mem_singleton.mp hrec]
    rw [show (gtMask (_transform aw roi (some mni2struc) ref Option.none (some struct2asl)
      false (1/2)) t).shape =
      (_transform aw roi (some mni2struc) ref Option.none (some struct2asl) false
        (1/2)).shape from rfl]
    rw [show (_transform aw roi (some mni2struc) ref Option.none (some struct2asl) false
      (1/2)).shape = (aw roi (some mni2struc) ref Option.none (some struct2asl)).shape
      from rfl]
    rw [haw, href]
  · intro getDesc loadAtlas rois mni2struc_warp struct2asl_mat atlas_name resolution t
      rec hrec
    rw [show add_rois_from_atlas aw getDesc loadAtlas rois mni2struc_warp ref
        struct2asl_mat atlas_name resolution t =
      (getDesc atlas_name).labels.foldl
        (fun acc label => add_mni_roi aw acc
          (loadAtlas (getDesc atlas_name).atlasID 2 label) label.name mni2struc_warp ref
          struct2asl_mat 50) rois from rfl] at hrec
    rw [atlas_foldl_decomp aw (loadAtlas (getDesc atlas_name).atlasID 2) mni2struc_warp
      ref struct2asl_mat, List.drop_left] at hrec
    rcases List.mem_map.mp hrec with ⟨label, _, hlab⟩
    rw [← hlab]
    rw [show (gtMask (_transform aw (loadAtlas (getDesc atlas_name).atlasID 2 label)
      (some mni2struc_warp) ref Option.none (some struct2asl_mat) false (1/2)) 50).shape =
      (aw (loadAtlas (getDesc atlas_name).atlasID 2 label) (some mni2struc_warp) ref
        Option.none (some struct2asl_mat)).shape from rfl]
    rw [haw, href]

/-- Witness for mask_native_shape_invariant with the identity-to-reference
collaborator and a one-voxel grid. -/
theorem mask_native_shape_invariant_witness :
    ((⟨[1], [PyF.fin 0]⟩ : NDArray).shape = [1]) ∧
    ∀ rec ∈ (add_struct_roi (fun _ _ ref _ _ => ref) [] ⟨[2, 2], [PyF.fin 1]⟩ "r"
        ⟨[1], [PyF.fin 0]⟩ [] (1/2)).drop ([] : List ROIRecord).length,
      rec.mask_native.shape = [1] :=
  ⟨rfl,
    (mask_native_shape_invariant [1] (fun _ _ ref _ _ => ref)
      (fun _ _ _ _ _ => rfl) ⟨[1], [PyF.fin 0]⟩ rfl).2.1 [] ⟨[2, 2], [PyF.fin 1]⟩ "r" []
      (1/2)⟩

/-- Claim C4: the perfusion dataset selector always yields exactly three
datasets; with a pvcorr subdirectory the suffixes are the empty string,
GM and WM, the GM and WM entries read the partial volume corrected value
and variance images, and their masks threshold the PVE images at the
lenient constant 0.1; without it all three datasets read the single
uncorrected image pair, the masks threshold at the strict constant 0.8,
and the percentage in the GM and WM suffixes is computed from that
constant, giving the literal 80 percent strings.  The pointwise meaning
of a threshold mask is given by gtMask: a voxel is kept exactly when its
PVE value is strictly above the constant. -/
theorem get_perfusion_data_branches (isdir : String → Bool) (load : String → NDArray)
    (outdir : String) (gm wm : NDArray) :
    (get_perfusion_data isdir load outdir gm wm).length = 3 ∧
    ((get_perfusion_data isdir load outdir gm wm).map PerfData.suffix =
      if isdir (pathJoin outdir "pvcorr") then ["", " GM", " WM"]
      else ["", " 80%+GM", " 80%+WM"]) ∧
    ((get_perfusion_data isdir load outdir gm wm).getD 0 ⟨"", ⟨[], []⟩, ⟨[], []⟩, Option.none⟩ =
      { suffix := "", f := load (pathJoin outdir "perfusion_calib"),
        var := load (pathJoin outdir "perfusion_var_calib"), mask := Option.none }) ∧
    (isdir (pathJoin outdir "pvcorr") = true →
      (get_perfusion_data isdir load outdir gm wm).getD 1 ⟨"", ⟨[], []⟩, ⟨[], []⟩, Option.none⟩ =
        { suffix := " GM",
          f := load (pathJoin (pathJoin outdir "pvcorr") "perfusion_calib"),
          var := load (pathJoin (pathJoin outdir "pvcorr") "perfusion_var_calib"),
          mask := some (gtMask gm PVE_THRESHOLD_PVC) } ∧
      (get_perfusion_data isdir load outdir gm wm).getD 2 ⟨"", ⟨[], []⟩, ⟨[], []⟩, Option.none⟩ =
        { suffix := " WM",
          f := load (pathJoin (pathJoin outdir "pvcorr") "perfusion_wm_calib"),
          var := load (pathJoin (pathJoin outdir "pvcorr") "perfusion_wm_var_calib"),
          mask := some (gtMask wm PVE_THRESHOLD_PVC) }) ∧
    (isdir (pathJoin outdir "pvcorr") = false →
      (get_perfusion_data isdir load outdir gm wm).getD 1 ⟨"", ⟨[], []⟩, ⟨[], []⟩, Option.none⟩ =
        { suffix := " 80%+GM", f := load (pathJoin outdir "perfusion_calib"),
          var := load (pathJoin outdir "perfusion_var_calib"),
          mask := some (gtMask gm PVE_THRESHOLD_NOPVC) } ∧
      (get_perfusion_data isdir load outdir gm wm).getD 2 ⟨"", ⟨[], []⟩, ⟨[], []⟩, Option.none⟩ =
        { suffix := " 80%+WM", f := load (pathJoin outdir "perfusion_calib"),
          var := load (pathJoin outdir "perfusion_var_calib"),
          mask := some (gtMask wm PVE_THRESHOLD_NOPVC) }) ∧
    PVE_THRESHOLD_PVC = 1/10 ∧ PVE_THRESHOLD_NOPVC = 8/10 ∧
    (∀ i, i < gm.data.length →
      ((gtMask gm PVE_THRESHOLD_PVC).data.getD i false = true ↔
        StrictlyAboveQ (gm.data.getD i PyF.nan) (1/10)) ∧
      ((gtMask gm PVE_THRESHOLD_NOPVC).data.getD i false = true ↔
        StrictlyAboveQ (gm.data.getD i PyF.nan) (8/10))) := by
  have hgm : intDecStr (truncQ (PVE_THRESHOLD_NOPVC * 100)) = "80" := by decide
  cases hd : isdir (pathJoin outdir "pvcorr") with
  | false =>
    refine ⟨by simp [get_perfusion_data, hd], ?_, by simp [get_perfusion_data, hd],
      by simp [hd], ?_, rfl, rfl, ?_⟩
    · simp only [get_perfusion_data, hd, if_false, if_neg Bool.false_ne_true, hgm]
      rfl
    · intro hf
      constructor
      · simp only [get_perfusion_data, hd, if_neg Bool.false_ne_true]
        simp [hgm]
      · simp only [get_perfusion_data, hd, if_neg Bool.false_ne_true]
        simp [hgm]
    · intro i hi
      exact ⟨(gtMask_spec gm PVE_THRESHOLD_PVC).2.2 i hi,
        (gtMask_spec gm PVE_THRESHOLD_NOPVC).2.2 i hi⟩
  | true =>
    refine ⟨by simp [get_perfusion_data, hd], ?_, by simp [get_perfusion_data, hd],
      ?_, by simp [hd], rfl, rfl, ?_⟩
    · simp [get_perfusion_data, hd]
    · intro hf
      exact ⟨by simp [get_perfusion_data, hd], by simp [get_perfusion_data, hd]⟩
    · intro i hi
      exact ⟨(gtMask_spec gm PVE_THRESHOLD_PVC).2.2 i hi,
        (gtMask_spec gm PVE_THRESHOLD_NOPVC).2.2 i hi⟩

/-- Witness for get_perfusion_data_branches: both branches on a concrete
one-voxel environment, with the suffix lists evaluated. -/
theorem get_perfusion_data_branches_witness :
    ((get_perfusion_data (fun _ => true) (fun _ => ⟨[1], [PyF.fin 1]⟩) "d"
        ⟨[1], [PyF.fin 1]⟩ ⟨[1], [PyF.fin 0]⟩).map PerfData.suffix =
      ["", " GM", " WM"]) ∧
    ((get_perfusion_data (fun _ => false) (fun _ => ⟨[1], [PyF.fin 1]⟩) "d"
        ⟨[1], [PyF.fin 1]⟩ ⟨[1], [PyF.fin 0]⟩).map PerfData.suffix =
      ["", " 80%+GM", " 80%+WM"]) := by
  have h1 := (get_perfusion_data_branches (fun _ => true) (fun _ => ⟨[1], [PyF.fin 1]⟩)
    "d" ⟨[1], [PyF.fin 1]⟩ ⟨[1], [PyF.fin 0]⟩).2.1
  have h2 := (get_perfusion_data_branches (fun _ => false) (fun _ => ⟨[1], [PyF.fin 1]⟩)
    "d" ⟨[1], [PyF.fin 1]⟩ ⟨[1], [PyF.fin 0]⟩).2.1
  simp only [if_pos rfl] at h1
  simp only [if_neg Bool.false_ne_true] at h2
  exact ⟨h1, h2⟩

/-- Claim C5 counterexample: at the very call main makes (threshold
argument 0.5, one label whose map has intensity 10 on a one-voxel grid,
identity warp engine), the code binarizes at the hardcoded 50 and the
voxel is excluded, whereas the claim's reading, in which the operation's
threshold parameter is the percentage threshold passed to the MNI
operation, would binarize at 0.5 and include it. -/
theorem add_rois_from_atlas_counterexample :
    ((add_rois_from_atlas (fun img _ _ _ _ => img) (fun _ => ⟨"id", [⟨"L"⟩]⟩)
        (fun _ _ _ => ⟨[1], [PyF.fin 10]⟩) [] ⟨[1], [PyF.fin 0]⟩ ⟨[1], [PyF.fin 0]⟩ []
        "harvardoxford-cortical" 2 (1/2)).map
      (fun rec => rec.mask_native.data) = [[false]]) ∧
    ((add_rois_from_atlas_claim (fun img _ _ _ _ => img) (fun _ => ⟨"id", [⟨"L"⟩]⟩)
        (fun _ _ _ => ⟨[1], [PyF.fin 10]⟩) [] ⟨[1], [PyF.fin 0]⟩ ⟨[1], [PyF.fin 0]⟩ []
        "harvardoxford-cortical" 2 (1/2)).map
      (fun rec => rec.mask_native.data) = [[true]]) ∧
    add_rois_from_atlas (fun img _ _ _ _ => img) (fun _ => ⟨"id", [⟨"L"⟩]⟩)
        (fun _ _ _ => ⟨[1], [PyF.fin 10]⟩) [] ⟨[1], [PyF.fin 0]⟩ ⟨[1], [PyF.fin 0]⟩ []
        "harvardoxford-cortical" 2 (1/2) ≠
      add_rois_from_atlas_claim (fun img _ _ _ _ => img) (fun _ => ⟨"id", [⟨"L"⟩]⟩)
        (fun _ _ _ => ⟨[1], [PyF.fin 10]⟩) [] ⟨[1], [PyF.fin 0]⟩ ⟨[1], [PyF.fin 0]⟩ []
        "harvardoxford-cortical" 2 (1/2) := by
  refine ⟨by decide, by decide, by decide⟩

/-- Claim C5 (amended): for every label of the atlas, the atlas operation
fetches the label's map and registers it via the MNI operation with the
binarization threshold hardcoded to 50 on the 0-100 probability scale;
the operation's own threshold parameter (whose default is 0.5, and which
main passes as 0.5) does not influence the binarization, so the result is
the same for every threshold argument. -/
theorem add_rois_from_atlas_fixed_50 (aw : AW) (getDesc : String → AtlasDesc)
    (loadAtlas : String → ℕ → AtlasLabel → NDArray) (rois : List ROIRecord)
    (mni2struc_warp ref_img : NDArray) (struct2asl_mat : Mat) (atlas_name : String)
    (resolution : ℕ) (threshold : ℚ) :
    add_rois_from_atlas aw getDesc loadAtlas rois mni2struc_warp ref_img struct2asl_mat
        atlas_name resolution threshold =
      add_rois_from_atlas aw getDesc loadAtlas rois mni2struc_warp ref_img struct2asl_mat
        atlas_name resolution 50 ∧
    add_rois_from_atlas aw getDesc loadAtlas rois mni2struc_warp ref_img struct2asl_mat
        atlas_name resolution threshold =
      rois ++ (getDesc atlas_name).labels.map (fun label =>
        { name := label.name,
          mask_native := (gtMask (_transform aw
            (loadAtlas (getDesc atlas_name).atlasID 2 label) (some mni2struc_warp)
            ref_img Option.none (some struct2asl_mat) false (1/2)) 50),
          roi_native := (some (_transform aw
            (loadAtlas (getDesc atlas_name).atlasID 2 label) (some mni2struc_warp)
            ref_img Option.none (some struct2asl_mat) false (1/2))),
          roi_struct := Option.none,
          roi_mni := some (loadAtlas (getDesc atlas_name).atlasID 2 label) }) := by
  refine ⟨rfl, ?_⟩
  exact atlas_foldl_decomp aw (loadAtlas (getDesc atlas_name).atlasID 2)
    mni2struc_warp ref_img struct2asl_mat (getDesc atlas_name).labels rois

end OxaslRoiStats

namespace OxaslRoiStats

example : i2 [PyF.fin 0, PyF.fin 1] [PyF.fin 8, PyF.fin 8] = some (-1499) := by decide

example :
    mean_invvarweighted [PyF.fin 5, PyF.pinf] [PyF.fin 1, PyF.fin 0] = PyF.nan := by decide

example : mean_invvarweighted [PyF.fin 5] [PyF.fin 1] = PyF.fin 5 := by decide

example : np_mean [PyF.fin 2, PyF.fin 4] = PyF.fin 3 := by decide

example : np_median [PyF.fin 3, PyF.fin 1, PyF.fin 2] = PyF.fin 2 := by decide

example : np_median [PyF.fin 4, PyF.fin 1, PyF.fin 2, PyF.fin 3] = PyF.fin (5/2) := by decide

example : scipy_iqr [PyF.fin 1, PyF.fin 2, PyF.fin 3, PyF.fin 4] = PyF.fin (3/2) := by decide

example :
    (get_stats [] ⟨[2], [PyF.fin 1, PyF.fin 2]⟩ ⟨[2], [PyF.fin 1, PyF.fin 1]⟩
      ⟨[2], [true, true]⟩ "" true true 10 Option.none).1 =
    [("Nvoxels", StatVal.int 2), ("Mean", StatVal.none), ("Std", StatVal.none),
     ("Median", StatVal.none), ("IQR", StatVal.none),
     ("Precision-weighted mean", StatVal.none), ("I2", StatVal.none)] := by decide

example :
    (get_stats [] ⟨[2], [PyF.fin 2, PyF.fin 4]⟩ ⟨[2], [PyF.fin 1, PyF.fin 1]⟩
      ⟨[2], [true, true]⟩ "" true true 1 Option.none).1 =
    [("Nvoxels", StatVal.int 2), ("Mean", StatVal.float (PyF.fin 3)),
     ("Std", StatVal.sqrtFloat (PyF.fin 1)), ("Median", StatVal.float (PyF.fin 3)),
     ("IQR", StatVal.float (PyF.fin 1)),
     ("Precision-weighted mean", StatVal.float (PyF.fin 3)),
     ("I2", StatVal.int 50)] := by decide

example : intDecStr (truncQ (PVE_THRESHOLD_NOPVC * 100)) = "80" := by decide

example :
    (get_perfusion_data (fun _ => false) (fun _ => ⟨[1], [PyF.fin 1]⟩) "d"
      ⟨[1], [PyF.fin 1]⟩ ⟨[1], [PyF.fin 0]⟩).map PerfData.suffix =
    ["", " 80%+GM", " 80%+WM"] := by decide

example :
    (get_perfusion_data (fun _ => true) (fun _ => ⟨[1], [PyF.fin 1]⟩) "d"
      ⟨[1], [PyF.fin 1]⟩ ⟨[1], [PyF.fin 0]⟩).map PerfData.suffix =
    ["", " GM", " WM"] := by decide

end OxaslRoiStats
